import Mathlib

/-!
# Verification of the Coronary_Artery_Score scoring engine

Shallow embedding of the coronary-artery scoring repository
(`single_sheet_processor.py`, `src/coronary_score/calculators/*.py`,
`run_scoring_with_dialog.py`, `智能转换器.py`) together with proofs about the
three calculators (SYNTAX, Gensini, CAD-RADS), the free-text stenosis
extraction, the fuzzy column matcher and the score merger.

Python floats are modelled as `ℚ` (all constants in the source are decimal
literals and all comparisons are order comparisons, so `ℚ` is faithful for
every property stated here); Python dicts keyed in insertion order are
modelled as association lists.
-/

/-- Canonical vessel enum (`VesselType` in `models/patient.py`). -/
inductive Vessel
  | LM | LAD | LCX | RCA | OM | D | PDA | PLV
deriving DecidableEq, Repr

/-- `VesselType.value` — the string payload of the enum. -/
def Vessel.toStr : Vessel → String
  | .LM => "LM" | .LAD => "LAD" | .LCX => "LCX" | .RCA => "RCA"
  | .OM => "OM" | .D => "D" | .PDA => "PDA" | .PLV => "PLV"

/-- Lesion location enum (`StenosisLocation` in `models/patient.py`). -/
inductive Location
  | proximal | mid | distal
deriving DecidableEq, Repr

/-- Gender enum (`Gender` in `models/patient.py`). -/
inductive Gender
  | male | female
deriving DecidableEq, Repr

/-- Typed lesion record (`Lesion` in `models/patient.py`); fields not read by
any calculator (lesion_id, morphology, is_treated, treatment_method) are
omitted. -/
structure Lesion where
  vessel : Vessel
  location : Location
  stenosis_percent : ℚ
  segment_id : Option ℕ := none
  length_mm : Option ℚ := none
  is_bifurcation : Bool := false
  is_ostial : Bool := false
  is_calcified : Bool := false
  is_tortuous : Bool := false
  is_cto : Bool := false
  thrombus_present : Bool := false
deriving DecidableEq, Repr

/-- Patient record (`PatientData` in `models/patient.py`); fields not read by
any calculator are omitted. -/
structure PatientData where
  age : ℤ
  gender : Gender
  diabetes : Bool := false
  hypertension : Bool := false
  hyperlipidemia : Bool := false
  smoking : Bool := false
  creatinine_mg_dl : Option ℚ := none
  ejection_fraction : Option ℚ := none
  lesions : List Lesion := []
deriving Repr

/-- Python's `round(x, 0)` tie-to-even integer rounding. -/
def pyRoundEven (q : ℚ) : ℤ :=
  let f := ⌊q⌋
  if q - f < 1/2 then f
  else if 1/2 < q - f then f + 1
  else if f % 2 = 0 then f else f + 1

/-- Python's `round(x, 1)`. -/
def pyRound1 (q : ℚ) : ℚ := (pyRoundEven (q * 10) : ℚ) / 10

/-- Python's `round(x, 2)`. -/
def pyRound2 (q : ℚ) : ℚ := (pyRoundEven (q * 100) : ℚ) / 100

/-- `dict.get(k, d)` over an insertion-ordered association list. -/
def lookupD {α : Type} [BEq α] (tbl : List (α × ℚ)) (k : α) (d : ℚ) : ℚ :=
  match tbl.find? (fun e => e.1 == k) with
  | some e => e.2
  | none => d

namespace CadRadsCalc

/-!  `src/coronary_score/calculators/cad_rads_calculator.py` -/

/-- `CADRADS_GRADES` ranges: grade, (min, max) of the inclusive band. -/
def GRADES : List (ℕ × ℚ × ℚ) :=
  [(0, 0, 0), (1, 1, 24), (2, 25, 49), (3, 50, 69), (4, 70, 99), (5, 100, 100)]

/-- The scan of `_stenosis_to_grade`: first band with `min ≤ s ≤ max`. -/
def findGrade (s : ℚ) : List (ℕ × ℚ × ℚ) → ℕ
  | [] => 0
  | g :: rest => if g.2.1 ≤ s ∧ s ≤ g.2.2 then g.1 else findGrade s rest

/-- `CadRadsCalculator._stenosis_to_grade` (lines 101–107). -/
def stenosisToGrade (s : ℚ) : ℕ := findGrade s GRADES

end CadRadsCalc

namespace SingleSheet

/-!  `single_sheet_processor.py`, class `CoronaryScoreCalculator` -/

/-- The grade bucketing inlined in `calculate_cad_rads_grade` (lines 121–133):
`0 → 0, ≤24 → 1, ≤49 → 2, ≤69 → 3, ≤99 → 4, else 5`. -/
def cadGradeOf (s : ℚ) : ℕ :=
  if s = 0 then 0
  else if s ≤ 24 then 1
  else if s ≤ 49 then 2
  else if s ≤ 69 then 3
  else if s ≤ 99 then 4
  else 5

/-- `stenosis_scores` table in `calculate_gensini_score` (lines 182–189). -/
def STENOSIS_SCORES : List ((ℚ × ℚ) × ℕ) :=
  [((0, 25), 1), ((25, 50), 2), ((50, 75), 4), ((75, 90), 8), ((90, 99), 16), ((99, 100), 32)]

/-- The scan in `calculate_gensini_score` (lines 196–200): first interval with
`min < s ≤ max`, else 0. -/
def findScore (s : ℚ) : List ((ℚ × ℚ) × ℕ) → ℕ
  | [] => 0
  | e :: rest => if e.1.1 < s ∧ s ≤ e.1.2 then e.2 else findScore s rest

/-- Per-lesion Gensini stenosis score of `calculate_gensini_score`. -/
def gensiniStenosisScore (s : ℚ) : ℕ := findScore s STENOSIS_SCORES

end SingleSheet

namespace GensiniCalc

/-!  `src/coronary_score/calculators/gensini_calculator.py` -/

/-- `GensiniCalculator.STENOSIS_SCORES` (the same table as the single-sheet
variant). -/
def STENOSIS_SCORES : List ((ℚ × ℚ) × ℕ) := SingleSheet.STENOSIS_SCORES

/-- `GensiniCalculator._get_stenosis_score` (lines 91–96): first interval with
`min < s ≤ max`, else 0. -/
def stenosisScore (s : ℚ) : ℕ := SingleSheet.findScore s STENOSIS_SCORES

end GensiniCalc

/-- The CAD-RADS step function exactly as the spec words it: 0 at 0, 1 on
(0,25), 2 on [25,50), 3 on [50,70), 4 on [70,100), 5 at 100. -/
def specCadGrade (s : ℚ) : ℕ :=
  if s = 0 then 0
  else if s < 25 then 1
  else if s < 50 then 2
  else if s < 70 then 3
  else if s < 100 then 4
  else 5

/-- The Gensini per-lesion stenosis score as the claim words it, rephrased as
a chain of upper bounds (0 scores 0; (0,25] → 1; (25,50] → 2; (50,75] → 4;
(75,90] → 8; (90,99] → 16; (99,100] → 32; anything above 100 scores 0). -/
def claimGensiniScore (s : ℚ) : ℕ :=
  if s ≤ 0 then 0
  else if s ≤ 25 then 1
  else if s ≤ 50 then 2
  else if s ≤ 75 then 4
  else if s ≤ 90 then 8
  else if s ≤ 99 then 16
  else if s ≤ 100 then 32
  else 0

/-- The single-sheet Gensini table scan, unfolded on the concrete table. -/
lemma gensiniScore_unfold (s : ℚ) : SingleSheet.gensiniStenosisScore s =
    if 0 < s ∧ s ≤ 25 then 1
    else if 25 < s ∧ s ≤ 50 then 2
    else if 50 < s ∧ s ≤ 75 then 4
    else if 75 < s ∧ s ≤ 90 then 8
    else if 90 < s ∧ s ≤ 99 then 16
    else if 99 < s ∧ s ≤ 100 then 32
    else 0 := rfl

lemma gensiniScore_eq_claim (s : ℚ) :
    SingleSheet.gensiniStenosisScore s = claimGensiniScore s := by
  rw [gensiniScore_unfold]
  unfold claimGensiniScore
  rcases le_or_lt s 0 with h1 | h1
  · rw [if_pos h1, if_neg (fun h => absurd h.1 (not_lt.2 h1)),
      if_neg (fun h => absurd h.1 (by linarith)), if_neg (fun h => absurd h.1 (by linarith)),
      if_neg (fun h => absurd h.1 (by linarith)), if_neg (fun h => absurd h.1 (by linarith)),
      if_neg (fun h => absurd h.1 (by linarith))]
  rw [if_neg (not_le.2 h1)]
  rcases le_or_lt s 25 with h2 | h2
  · rw [if_pos ⟨h1, h2⟩, if_pos h2]
  rw [if_neg (fun h => absurd h.2 (not_le.2 h2)), if_neg (not_le.2 h2)]
  rcases le_or_lt s 50 with h3 | h3
  · rw [if_pos ⟨h2, h3⟩, if_pos h3]
  rw [if_neg (fun h => absurd h.2 (not_le.2 h3)), if_neg (not_le.2 h3)]
  rcases le_or_lt s 75 with h4 | h4
  · rw [if_pos ⟨h3, h4⟩, if_pos h4]
  rw [if_neg (fun h => absurd h.2 (not_le.2 h4)), if_neg (not_le.2 h4)]
  rcases le_or_lt s 90 with h5 | h5
  · rw [if_pos ⟨h4, h5⟩, if_pos h5]
  rw [if_neg (fun h => absurd h.2 (not_le.2 h5)), if_neg (not_le.2 h5)]
  rcases le_or_lt s 99 with h6 | h6
  · rw [if_pos ⟨h5, h6⟩, if_pos h6]
  rw [if_neg (fun h => absurd h.2 (not_le.2 h6)), if_neg (not_le.2 h6)]
  rcases le_or_lt s 100 with h7 | h7
  · rw [if_pos ⟨h6, h7⟩, if_pos h7]
  rw [if_neg (fun h => absurd h.2 (not_le.2 h7)), if_neg (not_le.2 h7)]

/-- **C2** (confirmed). Both Gensini stenosis-score implementations
(`GensiniCalculator._get_stenosis_score` and the inline table scan of
`single_sheet_processor.calculate_gensini_score`) realise the half-open
interval table `min < s ≤ max`: (0,25]→1, (25,50]→2, (50,75]→4, (75,90]→8,
(90,99]→16, (99,100]→32, with s = 0 outside every interval scoring 0; in
particular score(25)=1, score(25.01)=2, score(100)=32, score(0)=0. -/
theorem gensini_stenosis_score_halfopen :
    (∀ s : ℚ, SingleSheet.gensiniStenosisScore s = claimGensiniScore s) ∧
    (∀ s : ℚ, GensiniCalc.stenosisScore s = claimGensiniScore s) ∧
    SingleSheet.gensiniStenosisScore 25 = 1 ∧
    SingleSheet.gensiniStenosisScore (25.01 : ℚ) = 2 ∧
    SingleSheet.gensiniStenosisScore 100 = 32 ∧
    SingleSheet.gensiniStenosisScore 0 = 0 := by
  refine ⟨gensiniScore_eq_claim, fun s => gensiniScore_eq_claim s, by decide, ?_, by decide, by decide⟩
  rw [gensiniScore_unfold]
  norm_num

/-- Monotonicity of the spec's CAD-RADS step function on nonnegative inputs. -/
lemma specCadGrade_mono (s t : ℚ) (hs : 0 ≤ s) (hst : s ≤ t) :
    specCadGrade s ≤ specCadGrade t := by
  by_cases hs0 : s = 0
  · simp [specCadGrade, hs0]
  · have ht0 : t ≠ 0 := fun h => hs0 (le_antisymm (h ▸ hst) hs)
    unfold specCadGrade
    rw [if_neg hs0, if_neg ht0]
    split_ifs <;> first | omega | linarith

/-- Monotonicity of the single-sheet grade bucketing on nonnegative inputs. -/
lemma cadGradeOf_mono (s t : ℚ) (hs : 0 ≤ s) (hst : s ≤ t) :
    SingleSheet.cadGradeOf s ≤ SingleSheet.cadGradeOf t := by
  by_cases hs0 : s = 0
  · simp [SingleSheet.cadGradeOf, hs0]
  · have ht0 : t ≠ 0 := fun h => hs0 (le_antisymm (h ▸ hst) hs)
    unfold SingleSheet.cadGradeOf
    rw [if_neg hs0, if_neg ht0]
    split_ifs <;> first | omega | linarith

/-- **C1** (counterexample). The claim says grade(s) = 1 for every
0 < s < 25, and that the grade is monotone. At the non-integer stenosis
24.5 the class-based `_stenosis_to_grade` falls through every inclusive
integer band and returns 0 (breaking monotonicity, since grade(24) = 1),
while the single-sheet bucketing returns 2; neither returns the claimed 1. -/
theorem cadrads_grade_claim_cex :
    CadRadsCalc.stenosisToGrade (24.5 : ℚ) = 0 ∧
    SingleSheet.cadGradeOf (24.5 : ℚ) = 2 ∧
    CadRadsCalc.stenosisToGrade (24.5 : ℚ) ≠ 1 ∧
    SingleSheet.cadGradeOf (24.5 : ℚ) ≠ 1 ∧
    CadRadsCalc.stenosisToGrade 24 = 1 ∧
    ¬ (CadRadsCalc.stenosisToGrade 24 ≤ CadRadsCalc.stenosisToGrade (24.5 : ℚ)) := by
  have h1 : CadRadsCalc.stenosisToGrade (24.5 : ℚ) = 0 := by
    simp only [CadRadsCalc.stenosisToGrade, CadRadsCalc.GRADES, CadRadsCalc.findGrade]
    norm_num
  have h2 : SingleSheet.cadGradeOf (24.5 : ℚ) = 2 := by
    simp only [SingleSheet.cadGradeOf]
    norm_num
  have h3 : CadRadsCalc.stenosisToGrade 24 = 1 := by decide
  exact ⟨h1, h2, by simp [h1], by simp [h2], h3, by simp [h1, h3]⟩

/-- **C1** (amended). Restricted to integer stenosis percents in [0,100] the
claimed step function is exactly what both implementations compute
(0→0, 1–24→1, 25–49→2, 50–69→3, 70–99→4, 100→5), and on integers both are
monotone non-decreasing; the single-sheet variant is moreover monotone on
all real (rational) stenosis values ≥ 0. -/
theorem cadrads_grade_integer_amended :
    (∀ n : ℕ, n ≤ 100 →
      CadRadsCalc.stenosisToGrade (n : ℚ) = specCadGrade (n : ℚ) ∧
      SingleSheet.cadGradeOf (n : ℚ) = specCadGrade (n : ℚ)) ∧
    (∀ s t : ℚ, 0 ≤ s → s ≤ t → SingleSheet.cadGradeOf s ≤ SingleSheet.cadGradeOf t) ∧
    (∀ n m : ℕ, n ≤ m → m ≤ 100 →
      CadRadsCalc.stenosisToGrade (n : ℚ) ≤ CadRadsCalc.stenosisToGrade (m : ℚ)) := by
  have hP1 : ∀ n : ℕ, n ≤ 100 →
      CadRadsCalc.stenosisToGrade (n : ℚ) = specCadGrade (n : ℚ) ∧
      SingleSheet.cadGradeOf (n : ℚ) = specCadGrade (n : ℚ) := by decide
  refine ⟨hP1, cadGradeOf_mono, fun n m hnm hm => ?_⟩
  rw [(hP1 n (hnm.trans hm)).1, (hP1 m hm).1]
  exact specCadGrade_mono _ _ (Nat.cast_nonneg n) (Nat.cast_le.mpr hnm)

/-- Witness for the amended C1 theorem at concrete inputs: grade(70) = 4 in
both implementations and 24 ≤ 70 gives monotone grades. -/
theorem cadrads_grade_integer_amended_witness :
    CadRadsCalc.stenosisToGrade ((70 : ℕ) : ℚ) = 4 ∧
    SingleSheet.cadGradeOf ((70 : ℕ) : ℚ) = 4 ∧
    SingleSheet.cadGradeOf (24 : ℚ) ≤ SingleSheet.cadGradeOf (70 : ℚ) := by
  obtain ⟨h1, h2, _⟩ := cadrads_grade_integer_amended
  have e := h1 70 (by norm_num)
  have hv : specCadGrade ((70 : ℕ) : ℚ) = 4 := by decide
  exact ⟨e.1.trans hv, e.2.trans hv, h2 24 70 (by norm_num) (by norm_num)⟩

namespace SingleSheet

/-- Lesion dict as consumed by `CoronaryScoreCalculator` in
`single_sheet_processor.py` (plain string keys, `lesion.get(..., default)`
defaults baked in). -/
structure SSLesion where
  vessel : String
  location : String := "proximal"
  stenosis_percent : ℚ
  length_mm : ℚ := 0
  is_bifurcation : Bool := false
  is_calcified : Bool := false
  is_cto : Bool := false
  is_ostial : Bool := false
  is_tortuous : Bool := false
  thrombus_present : Bool := false
deriving DecidableEq, Repr

/-- `self.vessel_weights` (lines 16–25). -/
def VESSEL_WEIGHTS : List (String × ℚ) :=
  [("LM", 5), ("LAD", 3.5), ("LCX", 3.5), ("RCA", 3.5),
   ("OM", 1), ("D", 1), ("PDA", 1), ("PLV", 0.5)]

/-- Base weight of a lesion in `calculate_syntax_score` (lines 38–47):
`vessel_weights.get(vessel, 1.0)` then `mid ×0.7`, `distal ×0.4`. -/
def sxBaseWeight (l : SSLesion) : ℚ :=
  let w := lookupD VESSEL_WEIGHTS l.vessel 1
  if l.location = "mid" then w * 0.7
  else if l.location = "distal" then w * 0.4
  else w

/-- Stenosis factor of `calculate_syntax_score` (lines 49–57). -/
def sxStenosisFactor (s : ℚ) : ℚ :=
  if 99 ≤ s then 5 else if 90 ≤ s then 2 else if 70 ≤ s then 1.5 else 1

/-- Complexity additions of `calculate_syntax_score` (lines 62–80). -/
def sxComplexity (l : SSLesion) : ℚ :=
  (if l.is_bifurcation then 1 else 0) + (if l.is_calcified then 2 else 0) +
  (if l.is_cto then 5 else 0) + (if l.is_ostial then 0.5 else 0) +
  (if l.is_tortuous then 1 else 0) + (if l.thrombus_present then 1 else 0) +
  (if 20 < l.length_mm then 1 else 0)

/-- Per-lesion SYNTAX contribution (`base_score + complexity_score`). -/
def sxLesionScore (l : SSLesion) : ℚ :=
  sxBaseWeight l * sxStenosisFactor l.stenosis_percent + sxComplexity l

/-- Accumulation loop of `calculate_syntax_score` (lines 32–83): lesions with
stenosis below 50 are skipped with `continue`. -/
def sxTotalRaw (lesions : List SSLesion) : ℚ :=
  lesions.foldl (fun acc l =>
    if l.stenosis_percent < 50 then acc else acc + sxLesionScore l) 0

/-- Risk bands of `calculate_syntax_score` (lines 94–102). -/
def sxRisk (t : ℚ) : String :=
  if t ≤ 22 then "low" else if t ≤ 32 then "intermediate" else "high"

/-- Result of `calculate_syntax_score` (lesion_details, which merely echo the
per-lesion sub-scores, are omitted). -/
structure SxResult where
  total_score : ℚ
  risk_category : String
deriving DecidableEq, Repr

/-- `CoronaryScoreCalculator.calculate_syntax_score` (lines 27–109). -/
def calculateSxScore (lesions : List SSLesion) : SxResult :=
  { total_score := pyRound1 (sxTotalRaw lesions)
    risk_category := sxRisk (sxTotalRaw lesions) }

/-- `gensini_weights` in `calculate_gensini_score` (lines 170–179). -/
def GENSINI_WEIGHTS : List (String × ℚ) :=
  [("LM", 5), ("LAD", 2.5), ("LCX", 2.5), ("RCA", 1),
   ("OM", 1), ("D", 1), ("PDA", 1), ("PLV", 0.5)]

/-- Vessel weight in `calculate_gensini_score` (lines 202–210):
`gensini_weights.get(vessel, 1.0)` then `mid ×0.8`, `distal ×0.5`. -/
def gensiniWeight (l : SSLesion) : ℚ :=
  let w := lookupD GENSINI_WEIGHTS l.vessel 1
  if l.location = "mid" then w * 0.8
  else if l.location = "distal" then w * 0.5
  else w

end SingleSheet

namespace SxCalc

/-!  `src/coronary_score/calculators/syntax_calculator.py` (SyntaxCalculator) -/

/-- `SyntaxCalculator.VESSEL_WEIGHTS` per segment id (lines 18–42). -/
def VESSEL_WEIGHTS : List (ℕ × ℚ) :=
  [(5, 5), (6, 3.5), (7, 2.5), (8, 1), (9, 1), (10, 0.5),
   (11, 3.5), (12, 1), (13, 1), (14, 1), (15, 0.5),
   (1, 3.5), (2, 1), (3, 1), (4, 1), (16, 0.5)]

/-- Vessel+location → segment id inference in `_get_segment_id`
(lines 171–195); vessels outside the mapping hit `vessel_map or 1`. -/
def inferSegmentId (v : Vessel) (loc : Location) : ℕ :=
  match v with
  | .LM => 5
  | .LAD => (match loc with | .proximal => 6 | .mid => 7 | .distal => 8)
  | .LCX => (match loc with | .proximal => 11 | .mid => 13 | .distal => 14)
  | .RCA => (match loc with | .proximal => 1 | .mid => 2 | .distal => 3)
  | _ => 1

/-- `SyntaxCalculator._get_segment_id` (lines 166–195). A present but zero
segment_id is falsy in Python and falls through to inference. -/
def getSegmentId (l : Lesion) : ℕ :=
  match l.segment_id with
  | some sid => if sid ≠ 0 then sid else inferSegmentId l.vessel l.location
  | none => inferSegmentId l.vessel l.location

/-- Weight retrieval in `_get_base_score` (line 125):
`VESSEL_WEIGHTS.get(segment_id, 1.0)`. -/
def baseWeight (l : Lesion) : ℚ := lookupD VESSEL_WEIGHTS (getSegmentId l) 1

/-- Stenosis factor of `_get_base_score` (lines 127–134). -/
def stenosisFactor (s : ℚ) : ℚ :=
  if 99 ≤ s then 5 else if 90 ≤ s then 2 else if 70 ≤ s then 1.5 else 1

/-- `SyntaxCalculator._get_base_score` (lines 119–136). -/
def baseScore (l : Lesion) : ℚ := baseWeight l * stenosisFactor l.stenosis_percent

/-- `SyntaxCalculator._get_complexity_score` (lines 138–164); a missing
`length_mm` is falsy, so only `some len` with `len > 20` adds the diffuse
term. -/
def complexityScore (l : Lesion) : ℚ :=
  (if l.is_bifurcation then 1 else 0) + (if l.is_ostial then 0.5 else 0) +
  (if l.is_calcified then 2 else 0) + (if l.thrombus_present then 1 else 0) +
  (if l.is_cto then 5 else 0) + (if l.is_tortuous then 1 else 0) +
  (match l.length_mm with
   | some len => if 20 < len then 1 else 0
   | none => 0)

/-- The loop of `_calculate_anatomical_score` (lines 98–117) before its final
`round(·, 1)`: lesions with stenosis below 50 are skipped. -/
def anatomicalRaw (lesions : List Lesion) : ℚ :=
  lesions.foldl (fun acc l =>
    if l.stenosis_percent < 50 then acc else acc + (baseScore l + complexityScore l)) 0

/-- `SyntaxCalculator._calculate_anatomical_score` (lines 98–117). -/
def anatomicalScore (lesions : List Lesion) : ℚ := pyRound1 (anatomicalRaw lesions)

/-- `SyntaxCalculator._calculate_clinical_score` (lines 197–223); zero
creatinine/ejection-fraction values are falsy in Python and add nothing. -/
def clinicalScore (p : PatientData) : ℚ :=
  (if 80 ≤ p.age then 10 else if 70 ≤ p.age then 5 else if 60 ≤ p.age then 2 else 0) +
  (if p.gender = .female then 2 else 0) +
  (if p.diabetes then 3 else 0) +
  (match p.creatinine_mg_dl with
   | some c => if c ≠ 0 ∧ 2 < c then 4 else 0
   | none => 0) +
  (match p.ejection_fraction with
   | some ef => if ef ≠ 0 ∧ ef < 50 then 3 else 0
   | none => 0)

/-- `SyntaxCalculator._get_risk_category` (lines 234–241). -/
def riskCategory (t : ℚ) : String :=
  if t ≤ 22 then "low" else if t ≤ 32 then "intermediate" else "high"

/-- Result dict of `SyntaxCalculator.calculate`. -/
structure CalcResult where
  total_score : ℚ
  anatomical_score : ℚ
  clinical_score : ℚ
  sx_ii_score : ℚ
  risk_category : String
deriving DecidableEq, Repr

/-- `SyntaxCalculator.calculate` (lines 59–96). -/
def calculate (p : PatientData) : CalcResult :=
  match p.lesions with
  | [] => { total_score := 0, anatomical_score := 0, clinical_score := 0,
            sx_ii_score := 0, risk_category := "low" }
  | _ =>
    let a := anatomicalScore p.lesions
    { total_score := a
      anatomical_score := a
      clinical_score := clinicalScore p
      sx_ii_score := pyRound1 (a * (1 + clinicalScore p / 100))
      risk_category := riskCategory a }

end SxCalc

namespace GensiniCalc

/-- `GENSINI_WEIGHTS` from `utils/vessel_segments.py` (lines 118–135). -/
def GENSINI_WEIGHTS : List (ℕ × ℚ) :=
  [(1, 1), (2, 1), (3, 1), (4, 1), (5, 5), (6, 2.5), (7, 1.5), (8, 1),
   (9, 1), (10, 0.5), (11, 2.5), (12, 1), (13, 1), (14, 1), (15, 0.5), (16, 0.5)]

/-- `default_weights` in `_get_vessel_weight` (lines 108–117). -/
def defaultWeight : Vessel → ℚ
  | .LM => 5 | .LAD => 2.5 | .LCX => 2.5 | .RCA => 1
  | .OM => 1 | .D => 1 | .PDA => 1 | .PLV => 0.5

/-- The location adjustment of `_get_vessel_weight` (lines 121–138): the
branches overwrite the base weight with fixed values rather than scaling it. -/
def inferredWeight (l : Lesion) : ℚ :=
  let base := defaultWeight l.vessel
  match l.location with
  | .proximal => if l.vessel = .LAD ∨ l.vessel = .LCX then 2.5
                 else if l.vessel = .RCA then 1 else base
  | .mid => if l.vessel = .LAD ∨ l.vessel = .LCX then 1.5
            else if l.vessel = .RCA then 1 else base
  | .distal => 1

/-- `GensiniCalculator._get_vessel_weight` (lines 98–140): a truthy
`segment_id` that is a key of `GENSINI_WEIGHTS` takes precedence. -/
def vesselWeight (l : Lesion) : ℚ :=
  match l.segment_id with
  | some sid =>
    if sid ≠ 0 ∧ GENSINI_WEIGHTS.any (fun e => e.1 == sid) then
      lookupD GENSINI_WEIGHTS sid 1
    else inferredWeight l
  | none => inferredWeight l

/-- Raw Gensini total of `GensiniCalculator.calculate` (lines 48–63). -/
def totalRaw (lesions : List Lesion) : ℚ :=
  lesions.foldl (fun acc l =>
    acc + (stenosisScore l.stenosis_percent : ℚ) * vesselWeight l) 0

/-- `GensiniCalculator._get_severity_grade` (lines 142–153). -/
def severityGrade (t : ℚ) : String :=
  if t = 0 then "normal" else if t ≤ 20 then "mild" else if t ≤ 40 then "moderate"
  else if t ≤ 80 then "severe" else "critical"

/-- Insertion-ordered `vessel_scores[key] += score` accumulation. -/
def addTo (m : List (String × ℚ)) (k : String) (v : ℚ) : List (String × ℚ) :=
  if m.any (fun e => e.1 == k) then
    m.map (fun e => if e.1 == k then (e.1, e.2 + v) else e)
  else m ++ [(k, v)]

/-- Result dict of `GensiniCalculator.calculate` (lesion_contributions, which
echo the per-lesion sub-scores, are omitted). -/
structure GsResult where
  total_score : ℚ
  vessel_scores : List (String × ℚ)
  severity_grade : String
deriving DecidableEq, Repr

/-- `GensiniCalculator.calculate` (lines 30–89). -/
def calculate (p : PatientData) : GsResult :=
  match p.lesions with
  | [] => { total_score := 0, vessel_scores := [], severity_grade := "normal" }
  | _ =>
    let t := totalRaw p.lesions
    { total_score := pyRound2 t
      vessel_scores := p.lesions.foldl (fun m l =>
        addTo m l.vessel.toStr ((stenosisScore l.stenosis_percent : ℚ) * vesselWeight l)) []
      severity_grade := severityGrade t }

end GensiniCalc

namespace CadRadsCalc

/-- `VESSEL_IMPORTANCE` (lines 26–35). -/
def vesselImportance : Vessel → ℚ
  | .LM => 5 | .LAD => 4 | .LCX => 3 | .RCA => 3
  | .OM => 2 | .D => 2 | .PDA => 2 | .PLV => 1

/-- Insertion-ordered grouping of lesions by `vessel.value`
(`_calculate_vessel_grades`, lines 86–92). -/
def groupVessels (lesions : List Lesion) : List (String × List Lesion) :=
  lesions.foldl (fun m l =>
    if m.any (fun e => e.1 == l.vessel.toStr) then
      m.map (fun e => if e.1 == l.vessel.toStr then (e.1, e.2 ++ [l]) else e)
    else m ++ [(l.vessel.toStr, [l])]) []

/-- Python `max` over the stenosis values of a lesion group (groups built by
`groupVessels` are never empty; `[]` is mapped to 0 only to totalise). -/
def maxStenosis : List Lesion → ℚ
  | [] => 0
  | l :: rest => rest.foldl (fun a x => max a x.stenosis_percent) l.stenosis_percent

/-- `CadRadsCalculator._calculate_vessel_grades` (lines 82–99). -/
def vesselGrades (lesions : List Lesion) : List (String × ℕ) :=
  (groupVessels lesions).map (fun e => (e.1, stenosisToGrade (maxStenosis e.2)))

/-- `vessel_scores` accumulation of `_find_dominant_vessel` (lines 114–127). -/
def dominantScores (lesions : List Lesion) : List (Vessel × ℚ) :=
  lesions.foldl (fun m l =>
    let sc := l.stenosis_percent / 100 * vesselImportance l.vessel
    if m.any (fun e => e.1 == l.vessel) then
      m.map (fun e => if e.1 == l.vessel then (e.1, e.2 + sc) else e)
    else m ++ [(l.vessel, sc)]) []

/-- Python's `max(scores, key=scores.get)`: first key attaining the maximal
value, in insertion order. -/
def firstMaxKey : List (Vessel × ℚ) → Option Vessel
  | [] => none
  | e :: rest => some (rest.foldl (fun b x => if x.2 > b.2 then x else b) e).1

/-- `CadRadsCalculator._find_dominant_vessel` (lines 109–130). -/
def dominantVessel (lesions : List Lesion) : Option Vessel :=
  match lesions with
  | [] => none
  | _ => firstMaxKey (dominantScores lesions)

/-- Result dict of `CadRadsCalculator.calculate` (the static
recommendation/follow-up strings keyed by grade are omitted). -/
structure CrResult where
  overall_grade : ℕ
  max_stenosis : ℚ
  vessel_grades : List (String × ℕ)
  dominant_vessel : Option String
deriving DecidableEq, Repr

/-- `CadRadsCalculator.calculate` (lines 41–80). -/
def calculate (p : PatientData) : CrResult :=
  match p.lesions with
  | [] => { overall_grade := 0, max_stenosis := 0, vessel_grades := [],
            dominant_vessel := none }
  | _ =>
    let grades := vesselGrades p.lesions
    { overall_grade := match grades.map (fun e => e.2) with
        | [] => 0
        | g :: gs => gs.foldl max g
      max_stenosis := maxStenosis p.lesions
      vessel_grades := grades
      dominant_vessel := (dominantVessel p.lesions).map Vessel.toStr }

end CadRadsCalc

section SyntaxFifty

/-- Folding the skip-below-50 loop from any accumulator equals the
accumulator plus the filtered sum (single-sheet variant). -/
lemma sxTotal_foldl_eq (lesions : List SingleSheet.SSLesion) :
    ∀ acc : ℚ, lesions.foldl (fun acc l =>
        if l.stenosis_percent < 50 then acc else acc + SingleSheet.sxLesionScore l) acc =
      acc + ((lesions.filter (fun l => decide (50 ≤ l.stenosis_percent))).map
        SingleSheet.sxLesionScore).sum := by
  induction lesions with
  | nil => intro acc; simp
  | cons l rest ih =>
    intro acc
    by_cases h : l.stenosis_percent < 50
    · rw [List.foldl_cons, if_pos h, ih, List.filter_cons,
        if_neg (by simp [not_le.2 h])]
    · rw [List.foldl_cons, if_neg h, ih, List.filter_cons,
        if_pos (by simp [not_lt.1 h]), List.map_cons, List.sum_cons]
      ring

/-- Same fact for the class-based anatomical loop. -/
lemma anatomicalRaw_foldl_eq (lesions : List Lesion) :
    ∀ acc : ℚ, lesions.foldl (fun acc l =>
        if l.stenosis_percent < 50 then acc
        else acc + (SxCalc.baseScore l + SxCalc.complexityScore l)) acc =
      acc + ((lesions.filter (fun l => decide (50 ≤ l.stenosis_percent))).map
        (fun l => SxCalc.baseScore l + SxCalc.complexityScore l)).sum := by
  induction lesions with
  | nil => intro acc; simp
  | cons l rest ih =>
    intro acc
    by_cases h : l.stenosis_percent < 50
    · rw [List.foldl_cons, if_pos h, ih, List.filter_cons,
        if_neg (by simp [not_le.2 h])]
    · rw [List.foldl_cons, if_neg h, ih, List.filter_cons,
        if_pos (by simp [not_lt.1 h]), List.map_cons, List.sum_cons]
      ring

/-- A concrete boundary lesion: LAD proximal at exactly 50% stenosis. -/
def ladFifty : SingleSheet.SSLesion :=
  { vessel := "LAD", location := "proximal", stenosis_percent := 50 }

/-- **C3** (confirmed). In both SYNTAX implementations the total is the sum
of the contributions of exactly the lesions with stenosis_percent ≥ 50:
lesions below 50 are filtered out (contribute nothing), and a lesion at
exactly 50 qualifies — e.g. a single LAD proximal 50% lesion contributes its
full weight 3.5 to the single-sheet total. -/
theorem sx_total_fifty_filter :
    (∀ lesions : List SingleSheet.SSLesion,
      SingleSheet.sxTotalRaw lesions =
        ((lesions.filter (fun l => decide (50 ≤ l.stenosis_percent))).map
          SingleSheet.sxLesionScore).sum) ∧
    (∀ lesions : List Lesion,
      SxCalc.anatomicalRaw lesions =
        ((lesions.filter (fun l => decide (50 ≤ l.stenosis_percent))).map
          (fun l => SxCalc.baseScore l + SxCalc.complexityScore l)).sum) ∧
    SingleSheet.sxTotalRaw [ladFifty] = 3.5 ∧
    SingleSheet.sxTotalRaw [{ ladFifty with stenosis_percent := 49.9 }] = 0 := by
  refine ⟨fun lesions => ?_, fun lesions => ?_, ?_, ?_⟩
  · rw [SingleSheet.sxTotalRaw, sxTotal_foldl_eq lesions 0, zero_add]
  · rw [SxCalc.anatomicalRaw, anatomicalRaw_foldl_eq lesions 0, zero_add]
  · have hb : SingleSheet.sxBaseWeight ladFifty = 3.5 := rfl
    have hc : SingleSheet.sxComplexity ladFifty = 0 := by
      norm_num [SingleSheet.sxComplexity, ladFifty]
    have hf : SingleSheet.sxStenosisFactor ladFifty.stenosis_percent = 1 := by
      norm_num [SingleSheet.sxStenosisFactor, ladFifty]
    simp only [SingleSheet.sxTotalRaw, List.foldl_cons, List.foldl_nil]
    rw [if_neg (by norm_num [ladFifty] : ¬ladFifty.stenosis_percent < 50), zero_add,
      SingleSheet.sxLesionScore, hb, hc, hf]
    norm_num
  · simp only [SingleSheet.sxTotalRaw, List.foldl_cons, List.foldl_nil]
    rw [if_pos (by norm_num [ladFifty] :
      ({ ladFifty with stenosis_percent := 49.9 } : SingleSheet.SSLesion).stenosis_percent < 50)]

end SyntaxFifty

/-- What the class-based SYNTAX weight inference actually realises per
vessel and location (segment id from `_get_segment_id`, then
`VESSEL_WEIGHTS.get(segment_id, 1.0)`); OM/D/PDA/PLV fall through
`vessel_map or 1` to segment 1 (RCA proximal, weight 3.5). -/
def sxInferredTable (v : Vessel) (loc : Location) : ℚ :=
  match v, loc with
  | .LM, _ => 5
  | .LAD, .proximal => 3.5 | .LAD, .mid => 2.5 | .LAD, .distal => 1
  | .LCX, .proximal => 3.5 | .LCX, .mid => 1 | .LCX, .distal => 1
  | .RCA, .proximal => 3.5 | .RCA, .mid => 1 | .RCA, .distal => 1
  | _, _ => 3.5

/-- The single-sheet SYNTAX location multiplier as the claim states it. -/
def ssLocFactor070 (loc : String) : ℚ :=
  if loc = "mid" then 0.7 else if loc = "distal" then 0.4 else 1

/-- A SYNTAX-qualifying OM lesion without a segment id. -/
def omSixty : Lesion := { vessel := .OM, location := .proximal, stenosis_percent := 60 }

/-- The same situation in the single-sheet shape, for vessel PLV. -/
def plvSixty : SingleSheet.SSLesion :=
  { vessel := "PLV", location := "proximal", stenosis_percent := 60 }

/-- **C4** (counterexample). The claim says a lesion whose vessel is not
matched by the vessel+location inference (e.g. OM, D, PDA, PLV) gets base
weight 1.0. In the class-based calculator an OM lesion without segment_id
resolves to segment 1 (weight 3.5), and in the single-sheet calculator PLV
is matched by the weight table with 0.5 — neither is 1.0. -/
theorem sx_base_weight_default_cex :
    SxCalc.baseWeight omSixty = 3.5 ∧ SxCalc.baseWeight omSixty ≠ 1 ∧
    SingleSheet.sxBaseWeight plvSixty = 0.5 ∧ SingleSheet.sxBaseWeight plvSixty ≠ 1 := by
  have h1 : SxCalc.baseWeight omSixty = 3.5 := rfl
  have h2 : SingleSheet.sxBaseWeight plvSixty = 0.5 := rfl
  exact ⟨h1, by rw [h1]; norm_num, h2, by rw [h2]; norm_num⟩

/-- **C4** (amended). For SYNTAX lesions without a segment_id: the class-based
calculator's base weight is the fixed per-(vessel,location) segment table
`sxInferredTable` (location is baked into the segment weights — no 0.7/0.4
multiplier — and the vessels outside the inference mapping, OM/D/PDA/PLV,
resolve to segment 1 with weight 3.5, not 1.0); the single-sheet calculator's
base weight is its per-vessel table value (OM/D/PDA 1.0 but PLV 0.5, unknown
vessels 1.0) times the location multiplier mid ×0.7 / distal ×0.4 / else ×1. -/
theorem sx_base_weight_amended :
    (∀ l : Lesion, l.segment_id = none →
      SxCalc.baseWeight l = sxInferredTable l.vessel l.location) ∧
    (∀ l : SingleSheet.SSLesion,
      SingleSheet.sxBaseWeight l =
        lookupD SingleSheet.VESSEL_WEIGHTS l.vessel 1 * ssLocFactor070 l.location) := by
  constructor
  · intro l h
    obtain ⟨v, loc, s, sid, len, b1, b2, b3, b4, b5, b6⟩ := l
    simp only at h
    subst h
    cases v <;> cases loc <;> rfl
  · intro l
    simp only [SingleSheet.sxBaseWeight, ssLocFactor070]
    split_ifs <;> first | rfl | rw [mul_one]

/-- Witness for the amended C4 theorem: an LAD mid lesion gets class-based
weight 2.5 (the segment-7 value, not 3.5 × 0.7) and single-sheet weight
3.5 × 0.7. -/
theorem sx_base_weight_amended_witness :
    SxCalc.baseWeight { vessel := .LAD, location := .mid, stenosis_percent := 60 } = 2.5 ∧
    SingleSheet.sxBaseWeight
      { vessel := "LAD", location := "mid", stenosis_percent := 60 } = 3.5 * 0.7 := by
  constructor
  · exact (sx_base_weight_amended.1
      { vessel := .LAD, location := .mid, stenosis_percent := 60 } rfl).trans rfl
  · refine (sx_base_weight_amended.2
      { vessel := "LAD", location := "mid", stenosis_percent := 60 }).trans ?_
    rw [show lookupD SingleSheet.VESSEL_WEIGHTS "LAD" 1 = 3.5 from rfl,
      show ssLocFactor070 "mid" = 0.7 from rfl]

/-- What the class-based Gensini location adjustment actually realises when
no segment override applies: fixed per-location values, with every distal
lesion forced to 1.0. -/
def gensiniInferredTable (v : Vessel) (loc : Location) : ℚ :=
  match v, loc with
  | .LM, .proximal => 5 | .LM, .mid => 5 | .LM, .distal => 1
  | .LAD, .proximal => 2.5 | .LAD, .mid => 1.5 | .LAD, .distal => 1
  | .LCX, .proximal => 2.5 | .LCX, .mid => 1.5 | .LCX, .distal => 1
  | .RCA, _ => 1
  | .PLV, .proximal => 0.5 | .PLV, .mid => 0.5 | .PLV, .distal => 1
  | _, _ => 1

/-- The single-sheet Gensini location multiplier as the claim states it. -/
def gsLocFactor (loc : String) : ℚ :=
  if loc = "mid" then 0.8 else if loc = "distal" then 0.5 else 1

/-- An LAD mid lesion without segment id. -/
def ladMid : Lesion := { vessel := .LAD, location := .mid, stenosis_percent := 60 }

/-- **C5** (counterexample). The claim says the Gensini vessel weight is the
base per-vessel weight times the location factor (proximal ×1.0, mid ×0.8,
distal ×0.5). In the class-based `_get_vessel_weight` an LAD mid lesion gets
the fixed value 1.5, not 2.5 × 0.8 = 2.0. -/
theorem gensini_weight_multiplier_cex :
    GensiniCalc.vesselWeight ladMid = 1.5 ∧
    GensiniCalc.vesselWeight ladMid ≠ 2.5 * 0.8 := by
  have h : GensiniCalc.vesselWeight ladMid = 1.5 := rfl
  exact ⟨h, by rw [h]; norm_num⟩

/-- **C5** (amended). The multiplicative rule (LM 5.0, LAD/LCX 2.5, RCA/OM/D/
PDA 1.0, PLV 0.5; ×1.0 proximal, ×0.8 mid, ×0.5 distal) is exactly what the
single-sheet Gensini calculator computes (it never consults a segment_id).
The class-based calculator instead uses fixed location-specific values
(`gensiniInferredTable`: LAD/LCX proximal 2.5 / mid 1.5, RCA always 1.0, and
every distal lesion 1.0 regardless of vessel), unless a nonzero segment_id
that is a key of GENSINI_WEIGHTS resolves to that table's per-segment weight,
which takes precedence. -/
theorem gensini_weight_amended :
    (∀ l : Lesion, l.segment_id = none →
      GensiniCalc.vesselWeight l = gensiniInferredTable l.vessel l.location) ∧
    (∀ (l : Lesion) (sid : ℕ), l.segment_id = some sid → 1 ≤ sid → sid ≤ 16 →
      GensiniCalc.vesselWeight l = lookupD GensiniCalc.GENSINI_WEIGHTS sid 1) ∧
    (∀ l : SingleSheet.SSLesion,
      SingleSheet.gensiniWeight l =
        lookupD SingleSheet.GENSINI_WEIGHTS l.vessel 1 * gsLocFactor l.location) := by
  refine ⟨?_, ?_, ?_⟩
  · intro l h
    obtain ⟨v, loc, s, sid, len, b1, b2, b3, b4, b5, b6⟩ := l
    simp only at h
    subst h
    cases v <;> cases loc <;> rfl
  · intro l sid h h1 h16
    have hk : GensiniCalc.GENSINI_WEIGHTS.any (fun e => e.1 == sid) = true := by
      interval_cases sid <;> rfl
    simp only [GensiniCalc.vesselWeight, h]
    rw [if_pos ⟨by omega, hk⟩]
  · intro l
    simp only [SingleSheet.gensiniWeight, gsLocFactor]
    split_ifs <;> first | rfl | rw [mul_one]

/-- Witness for the amended C5 theorem: LAD mid infers 1.5; segment_id 6
overrides to 2.5; the single-sheet weight of an LAD mid lesion is
2.5 × 0.8. -/
theorem gensini_weight_amended_witness :
    GensiniCalc.vesselWeight ladMid = 1.5 ∧
    GensiniCalc.vesselWeight { ladMid with segment_id := some 6 } = 2.5 ∧
    SingleSheet.gensiniWeight
      { vessel := "LAD", location := "mid", stenosis_percent := 60 } = 2.5 * 0.8 := by
  refine ⟨(gensini_weight_amended.1 ladMid rfl).trans rfl, ?_, ?_⟩
  · exact (gensini_weight_amended.2.1 { ladMid with segment_id := some 6 } 6 rfl
      (by norm_num) (by norm_num)).trans rfl
  · refine (gensini_weight_amended.2.2
      { vessel := "LAD", location := "mid", stenosis_percent := 60 }).trans ?_
    rw [show lookupD SingleSheet.GENSINI_WEIGHTS "LAD" 1 = 2.5 from rfl,
      show gsLocFactor "mid" = 0.8 from rfl]

/-- **C10** (confirmed). Each of the three class-based calculators returns a
well-defined benign result on a patient with an empty lesion list: SYNTAX
total 0.0 with risk 'low', Gensini total 0.0 with severity 'normal',
CAD-RADS overall grade 0 with max stenosis 0 and no dominant vessel. -/
theorem empty_lesions_benign (p : PatientData) (h : p.lesions = []) :
    (SxCalc.calculate p).total_score = 0 ∧
    (SxCalc.calculate p).risk_category = "low" ∧
    (GensiniCalc.calculate p).total_score = 0 ∧
    (GensiniCalc.calculate p).severity_grade = "normal" ∧
    (CadRadsCalc.calculate p).overall_grade = 0 ∧
    (CadRadsCalc.calculate p).max_stenosis = 0 ∧
    (CadRadsCalc.calculate p).dominant_vessel = none := by
  refine ⟨?_, ?_, ?_, ?_, ?_, ?_, ?_⟩ <;>
    simp [SxCalc.calculate, GensiniCalc.calculate, CadRadsCalc.calculate, h]

/-- Witness for C10 at a concrete lesion-free patient. -/
theorem empty_lesions_benign_witness :
    (SxCalc.calculate { age := 60, gender := .male }).total_score = 0 ∧
    (CadRadsCalc.calculate { age := 60, gender := .male }).dominant_vessel = none := by
  have h := empty_lesions_benign { age := 60, gender := .male } rfl
  exact ⟨h.1, h.2.2.2.2.2.2⟩

/-! ## String helpers shared by the text extractor and the column matcher.
Python `in`, `str.strip()` and `str.lower()` are modelled character-wise;
for the repository's vocabulary (ASCII letters, digits, punctuation and
Chinese ideographs) the models coincide with Python's Unicode behaviour. -/

/-- Is the first list a prefix of the second (Bool)? -/
def prefixEq : List Char → List Char → Bool
  | [], _ => true
  | _ :: _, [] => false
  | a :: as, b :: bs => a == b && prefixEq as bs

/-- Is `needle` a contiguous subsequence of the haystack (Python `sub in s`)? -/
def seqIn (needle : List Char) : List Char → Bool
  | [] => needle.isEmpty
  | c :: t => prefixEq needle (c :: t) || seqIn needle t

/-- `sub in s` on strings. -/
def containsStr (s sub : String) : Bool := seqIn sub.toList s.toList

/-- Python `str.strip()`. -/
def trimChars (l : List Char) : List Char :=
  ((l.dropWhile Char.isWhitespace).reverse.dropWhile Char.isWhitespace).reverse

/-- Python `str.strip()` on strings (`String.trim` is avoided only because it
does not reduce inside the kernel). -/
def pyStrip (s : String) : String := String.mk (trimChars s.toList)

/-- Python `str.lower()`; only ASCII letters are affected in the repository's
vocabulary, which is exactly what `Char.toLower` does. -/
def pyLower (s : String) : String := String.mk (s.toList.map Char.toLower)

/-- Value of a regex token `\d+\.?\d*` split into integer digits and
fractional digits — Python `float()` of the matched text. -/
def digitsToNat (l : List Char) : ℕ := l.foldl (fun n c => 10 * n + (c.toNat - 48)) 0

/-- `float` value of a numeric token (integer part `ds`, fraction `fs`). -/
def tokenVal (ds fs : List Char) : ℚ :=
  if fs.isEmpty then (digitsToNat ds : ℚ)
  else (digitsToNat ds : ℚ) + (digitsToNat fs : ℚ) / 10 ^ fs.length

/-- One left-to-right pass of `re.findall(r"\d+\.?\d*", s)` evaluated with
`float`: maximal digit runs, an optional dot, then more digits. The fuel
argument only bounds the recursion; `scanNumbers` passes the list length,
which always suffices because every token consumes at least one character. -/
def scanAux : ℕ → List Char → List ℚ
  | 0, _ => []
  | _ + 1, [] => []
  | fuel + 1, c :: rest =>
    if c.isDigit then
      match (c :: rest).dropWhile Char.isDigit with
      | '.' :: r =>
        tokenVal ((c :: rest).takeWhile Char.isDigit) (r.takeWhile Char.isDigit) ::
          scanAux fuel (r.dropWhile Char.isDigit)
      | r1 => tokenVal ((c :: rest).takeWhile Char.isDigit) [] :: scanAux fuel r1
    else scanAux fuel rest

/-- `[float(n) for n in re.findall(r"\d+\.?\d*", s)]`. -/
def scanNumbers (l : List Char) : List ℚ := scanAux l.length l

namespace Dialog

/-- `STENOSIS_KEYWORDS` (line 100). -/
def STENOSIS_KEYWORDS : List String :=
  ["狭窄", "闭塞", "堵塞", "阻塞", "病变", "肌桥", "正常", "未见狭窄", "无狭窄"]

/-- The negative markers of `extract_stenosis_percent` (line 117). -/
def NEG_MARKERS : List String := ["无狭窄", "正常", "未见狭窄"]

/-- The occlusion markers of `extract_stenosis_percent` (line 119). -/
def OCC_MARKERS : List String := ["完全闭塞", "闭塞", "100%", "CTO"]

/-- The gate of `extract_stenosis_percent` (lines 111–115): a `%` sign or a
stenosis keyword. -/
def gatePass (s : String) : Bool :=
  s.toList.contains '%' || STENOSIS_KEYWORDS.any (containsStr s)

/-- Negative-marker test. -/
def negMark (s : String) : Bool := NEG_MARKERS.any (containsStr s)

/-- Occlusion-marker test. -/
def occMark (s : String) : Bool := OCC_MARKERS.any (containsStr s)

/-- `"重度" in s or "严重" in s`. -/
def sevHeavy (s : String) : Bool := containsStr s "重度" || containsStr s "严重"

/-- `"中度" in s`. -/
def sevMid (s : String) : Bool := containsStr s "中度"

/-- `"轻度" in s`. -/
def sevLight (s : String) : Bool := containsStr s "轻度"

/-- `extract_stenosis_percent` (lines 103–136); `none` models both a NaN cell
and a `None` return. Both the range branch and the plain branch of the source
return `max(values)`, so the `use_range_upper` flag is irrelevant and the
final step is a single maximum. -/
def extractStenosis (t : Option String) : Option ℚ :=
  match t with
  | none => none
  | some raw =>
    let s := pyStrip raw
    if s.isEmpty then none
    else if !gatePass s then none
    else if negMark s then some 0
    else if occMark s then some 100
    else if sevHeavy s then some 90
    else if sevMid s then some 70
    else if sevLight s then some 50
    else
      match scanNumbers s.toList with
      | [] => none
      | v :: vs => some (vs.foldl max v)

/-- `SEGMENT_COLUMN_MAP` (lines 32–52): column name → (vessel, location). -/
def SEGMENT_COLUMN_MAP : List (String × String × String) :=
  [("右冠近段", "RCA", "proximal"), ("右冠中段", "RCA", "mid"), ("右冠远段", "RCA", "distal"),
   ("右冠-后降支", "PDA", "distal"), ("右冠-左室后侧支", "PLV", "distal"),
   ("左主干", "LM", "proximal"),
   ("左冠-前降支近段", "LAD", "proximal"), ("左冠-前降支中段", "LAD", "mid"),
   ("左冠-前降支远段", "LAD", "distal"),
   ("左冠-第一对角支", "D", "distal"), ("左冠-第二对角支", "D", "distal"),
   ("左冠-回旋支近段", "LCX", "proximal"), ("左冠-回旋支中段", "LCX", "mid"),
   ("左冠-回旋支远段", "LCX", "distal"),
   ("左冠-第一钝缘支", "OM", "distal"), ("左冠-第二钝缘支", "OM", "distal"),
   ("左冠-左房回旋支", "LCX", "distal"), ("左冠-左室后侧支", "PLV", "distal"),
   ("左冠-后降支", "PDA", "distal")]

/-- A data row: cell contents by column name; `none` models both an absent
column and a NaN cell (the loop of `iter_lesions` skips the column either
way). -/
def Row : Type := String → Option String

/-- Functional update of a row at one column. -/
def updateRow (r : Row) (c : String) (v : Option String) : Row :=
  fun x => if x = c then v else r x

/-- A lesion dict yielded by `iter_lesions` (lines 163–170); the age/gender
attributes are carried through unchanged and omitted here. -/
structure OutLesion where
  patient_id : String
  vessel : String
  location : String
  stenosis_percent : ℚ
deriving DecidableEq, Repr

/-- The per-segment-column loop body of `iter_lesions` (lines 153–170): one
lesion per segment column whose text parses, skipping zero-stenosis cells
unless `include_zero`. -/
def rowLesions (includeZero : Bool) (pid : String) (row : Row) : List OutLesion :=
  SEGMENT_COLUMN_MAP.filterMap (fun e =>
    match extractStenosis (row e.1) with
    | none => none
    | some st =>
      if st = 0 && !includeZero then none
      else some { patient_id := pid, vessel := e.2.1, location := e.2.2,
                  stenosis_percent := st })

/-- One row of `iter_lesions` (lines 145–174): a missing/blank `subjid`
raises (caught by the per-row handler and reported), otherwise the row
yields its segment-column lesions. The `for` loop at source line 153 is
written dedented out of the `try` block (a syntax error as committed); it is
embedded at its evident intended nesting, which the row-level `except`
handler at line 171 presupposes. -/
def processRow (includeZero : Bool) (row : Row) : Except String (List OutLesion) :=
  match row "subjid" with
  | none => .error "missing patient id"
  | some pid =>
    if (pyStrip pid).isEmpty then .error "missing patient id"
    else .ok (rowLesions includeZero pid row)

end Dialog

/-- **C6** (counterexample). The claim says that whenever the text contains a
number (and passes the gate with no negative/occlusion marker), the result is
the maximum of the numbers, severity adjectives being only a no-number
fallback. On "中度狭窄60%" the code returns the adjective value 70, not the
extracted number 60: adjectives are checked before numbers. -/
theorem extract_adjective_before_numbers_cex :
    Dialog.extractStenosis (some "中度狭窄60%") = some 70 ∧
    scanNumbers (pyStrip "中度狭窄60%").toList = [60] ∧
    Dialog.extractStenosis (some "中度狭窄60%") ≠ some 60 := by
  refine ⟨by decide, by decide, by decide⟩

/-- **C6** (amended). After the gate, the negative markers and the occlusion
markers, `extract_stenosis_percent` checks the severity adjectives
重度/严重→90, 中度→70, 轻度→50 — *before* extracting numbers, so an adjective
wins even when numbers are present; only when no marker and no adjective
matches is the result the maximum of the extracted numbers (`none` if there
are none). -/
theorem extract_priority_amended (s : String)
    (hne : (pyStrip s).isEmpty = false)
    (hgate : Dialog.gatePass (pyStrip s) = true)
    (hneg : Dialog.negMark (pyStrip s) = false)
    (hocc : Dialog.occMark (pyStrip s) = false) :
    (Dialog.sevHeavy (pyStrip s) = true →
      Dialog.extractStenosis (some s) = some 90) ∧
    (Dialog.sevHeavy (pyStrip s) = false → Dialog.sevMid (pyStrip s) = true →
      Dialog.extractStenosis (some s) = some 70) ∧
    (Dialog.sevHeavy (pyStrip s) = false → Dialog.sevMid (pyStrip s) = false →
      Dialog.sevLight (pyStrip s) = true →
      Dialog.extractStenosis (some s) = some 50) ∧
    (Dialog.sevHeavy (pyStrip s) = false → Dialog.sevMid (pyStrip s) = false →
      Dialog.sevLight (pyStrip s) = false →
      ∀ (v : ℚ) (vs : List ℚ), scanNumbers (pyStrip s).toList = v :: vs →
      Dialog.extractStenosis (some s) = some (vs.foldl max v)) := by
  refine ⟨fun h1 => ?_, fun h1 h2 => ?_, fun h1 h2 h3 => ?_, fun h1 h2 h3 v vs hn => ?_⟩
  · simp [Dialog.extractStenosis, hne, hgate, hneg, hocc, h1]
  · simp [Dialog.extractStenosis, hne, hgate, hneg, hocc, h1, h2]
  · simp [Dialog.extractStenosis, hne, hgate, hneg, hocc, h1, h2, h3]
  · simp only [String.toList] at hn
    simp [Dialog.extractStenosis, hne, hgate, hneg, hocc, h1, h2, h3, hn]

/-- Witness for the amended C6 theorem: "狭窄50-70%" has no marker and no
adjective, so the extractor returns the maximum 70 of its numbers. -/
theorem extract_priority_amended_witness :
    Dialog.extractStenosis (some "狭窄50-70%") = some ([(70 : ℚ)].foldl max 50) := by
  exact (extract_priority_amended "狭窄50-70%" (by decide) (by decide) (by decide)
    (by decide)).2.2.2 (by decide) (by decide) (by decide) 50 [70] (by decide)

/-- **C7** (confirmed). A cell text with neither a `%` sign nor any keyword
of the fixed set fails the extraction gate: `extract_stenosis_percent`
returns `None`, the cell contributes no lesion (the row's lesions are those
of the other columns, unchanged), and the row is still processed normally —
no error is raised. -/
theorem unparseable_text_no_lesion (t : String)
    (hp : (pyStrip t).toList.contains '%' = false)
    (hk : Dialog.STENOSIS_KEYWORDS.any (containsStr (pyStrip t)) = false) :
    Dialog.extractStenosis (some t) = none ∧
    ∀ (iz : Bool) (pid : String) (row : Dialog.Row) (c : String),
      c ∈ Dialog.SEGMENT_COLUMN_MAP.map (fun e => e.1) → row c = some t →
      Dialog.rowLesions iz pid row = Dialog.rowLesions iz pid (Dialog.updateRow row c none) ∧
      Dialog.processRow iz row = Dialog.processRow iz (Dialog.updateRow row c none) := by
  have hnone : Dialog.extractStenosis (some t) = none := by
    have hg : Dialog.gatePass (pyStrip t) = false := by
      unfold Dialog.gatePass
      rw [hp, hk]
      rfl
    by_cases he : (pyStrip t).isEmpty
    · simp [Dialog.extractStenosis, he]
    · simp [Dialog.extractStenosis, he, hg]
  refine ⟨hnone, fun iz pid row c hc hrow => ?_⟩
  have hsub : c ≠ "subjid" := by
    intro h
    subst h
    revert hc
    decide
  have hrl : ∀ p : String, Dialog.rowLesions iz p row =
      Dialog.rowLesions iz p (Dialog.updateRow row c none) := by
    intro p
    unfold Dialog.rowLesions
    refine List.filterMap_congr (fun e _ => ?_)
    by_cases hec : e.1 = c
    · rw [hec, hrow, hnone]
      simp [Dialog.updateRow, Dialog.extractStenosis]
    · simp [Dialog.updateRow, hec]
  refine ⟨hrl pid, ?_⟩
  unfold Dialog.processRow
  have hs : Dialog.updateRow row c none "subjid" = row "subjid" := by
    unfold Dialog.updateRow
    rw [if_neg (fun h => hsub h.symm)]
  rw [hs]
  cases row "subjid" with
  | none => rfl
  | some pid' =>
    by_cases hpe : (pyStrip pid').isEmpty <;> simp [hpe, hrl pid']

/-- Witness for C7: the text "未查" (no `%`, no keyword) in the 左主干 column
yields no lesion, and the row — which also holds a parseable 右冠近段 cell —
still produces exactly that other column's lesion. -/
theorem unparseable_text_no_lesion_witness :
    Dialog.extractStenosis (some "未查") = none ∧
    Dialog.rowLesions false "P01"
        (fun x => if x = "左主干" then some "未查"
                  else if x = "右冠近段" then some "狭窄80%"
                  else if x = "subjid" then some "P01" else none) =
      Dialog.rowLesions false "P01"
        (Dialog.updateRow
          (fun x => if x = "左主干" then some "未查"
                    else if x = "右冠近段" then some "狭窄80%"
                    else if x = "subjid" then some "P01" else none) "左主干" none) := by
  have h := unparseable_text_no_lesion "未查" (by decide) (by decide)
  exact ⟨h.1, (h.2 false "P01" _ "左主干" (by decide) (by decide)).1⟩

namespace Converter

/-!  `智能转换器.py` (`IntelligentExcelConverter`) -/

/-- `self.field_mapping` (lines 18–82), in insertion order. -/
def fieldMapping : List (String × List String) :=
  [("patient_id",
    ["patient_id", "patientid", "id", "患者id", "患者ID", "病例号", "住院号",
     "门诊号", "病历号", "编号", "case_id", "caseid", "number", "no", "序号"]),
   ("age", ["age", "年龄", "years", "yr", "years_old", "岁"]),
   ("gender", ["gender", "sex", "性别", "男女", "male_female", "gender_mf"]),
   ("vessel",
    ["vessel", "artery", "血管", "病变血管", "靶血管", "罪犯血管", "主要病变血管",
     "target_vessel", "culprit_vessel", "main_vessel", "血管名称"]),
   ("stenosis_percent",
    ["stenosis", "stenosis_percent", "狭窄", "狭窄度", "狭窄百分比", "狭窄程度",
     "narrowing", "occlusion", "阻塞", "堵塞", "blockage", "狭窄率", "%"]),
   ("location",
    ["location", "position", "位置", "部位", "节段", "段", "segment",
     "病变位置", "狭窄位置", "lesion_location"]),
   ("diabetes", ["diabetes", "dm", "糖尿病", "diabetic", "血糖", "glucose"]),
   ("hypertension", ["hypertension", "htn", "bp", "高血压", "血压", "blood_pressure"]),
   ("hyperlipidemia", ["hyperlipidemia", "lipid", "高脂血症", "血脂", "胆固醇", "cholesterol"]),
   ("smoking", ["smoking", "smoke", "吸烟", "烟草", "tobacco", "抽烟"]),
   ("ejection_fraction",
    ["ef", "ejection_fraction", "lvef", "射血分数", "左室射血分数",
     "ejection", "fraction", "心功能"]),
   ("creatinine_mg_dl", ["creatinine", "cr", "scr", "肌酐", "血肌酐", "血清肌酐", "creat"]),
   ("length_mm", ["length", "lesion_length", "长度", "病变长度", "狭窄长度", "mm", "millimeter"]),
   ("is_bifurcation", ["bifurcation", "分叉", "分岔", "branch", "分支", "bifur"]),
   ("is_calcified", ["calcified", "calcium", "calc", "钙化", "钙质", "ca"]),
   ("is_ostial", ["ostial", "ostium", "开口", "起始", "入口", "mouth"]),
   ("is_tortuous", ["tortuous", "tortuosity", "迂曲", "扭曲", "弯曲", "curved", "winding"]),
   ("is_cto",
    ["cto", "occlusion", "完全闭塞", "慢性闭塞", "闭塞", "total_occlusion",
     "chronic_occlusion", "100%"]),
   ("thrombus_present", ["thrombus", "clot", "血栓", "血凝块", "thrombosis"])]

/-- The containment score of `analyze_columns` (line 163):
`len(possible_clean) / max(len(col_clean), 1) * 80`. -/
def containScore (ac cc : List Char) : ℚ :=
  (ac.length : ℚ) / ((max cc.length 1 : ℕ) : ℚ) * 80

/-- The score as the spec words it: `len(shorter)/len(longer) × 80`. -/
def claimContainScore (ac cc : List Char) : ℚ :=
  ((min ac.length cc.length : ℕ) : ℚ) / ((max ac.length cc.length : ℕ) : ℚ) * 80

/-- The inner alias loop of `analyze_columns` (lines 152–166) for one
candidate column: an exact cleaned match takes the column with score 100 and
breaks; a containment in either direction updates the best on a strictly
greater score. -/
def aliasScan (cc : List Char) (col : String) :
    List String → Option String × ℚ → Option String × ℚ
  | [], best => best
  | a :: rest, best =>
    let ac := trimChars (pyLower a).toList
    if ac = cc then (some col, 100)
    else if seqIn ac cc || seqIn cc ac then
      if containScore ac cc > best.2 then aliasScan cc col rest (some col, containScore ac cc)
      else aliasScan cc col rest best
    else aliasScan cc col rest best

/-- The candidate-column loop of `analyze_columns` (lines 146–166): columns
already consumed by an earlier canonical field are skipped. -/
def bestFor (aliases : List String) (cols used : List String) : Option String × ℚ :=
  cols.foldl (fun best col =>
    if used.contains col then best
    else aliasScan (trimChars (pyLower col).toList) col aliases best) (none, 0)

/-- `IntelligentExcelConverter.analyze_columns` (lines 133–172): canonical
fields in table order claim the best-scoring unused column when the score
exceeds 50. -/
def analyzeColumns (fields : List (String × List String)) (rawCols : List String) :
    List (String × String) :=
  let cols := rawCols.map pyStrip
  fields.foldl (fun mapping f =>
    match bestFor f.2 cols (mapping.map (fun e => e.2)) with
    | (some col, sc) => if sc > 50 then mapping ++ [(f.1, col)] else mapping
    | (none, _) => mapping) []

/-- `analyze_columns` with the spec's `len(shorter)/len(longer) × 80`
containment score substituted — the comparison definition for the claim,
identical otherwise. -/
def claimAliasScan (cc : List Char) (col : String) :
    List String → Option String × ℚ → Option String × ℚ
  | [], best => best
  | a :: rest, best =>
    let ac := trimChars (pyLower a).toList
    if ac = cc then (some col, 100)
    else if seqIn ac cc || seqIn cc ac then
      if claimContainScore ac cc > best.2 then
        claimAliasScan cc col rest (some col, claimContainScore ac cc)
      else claimAliasScan cc col rest best
    else claimAliasScan cc col rest best

/-- Column loop of the spec-worded matcher. -/
def claimBestFor (aliases : List String) (cols used : List String) : Option String × ℚ :=
  cols.foldl (fun best col =>
    if used.contains col then best
    else claimAliasScan (trimChars (pyLower col).toList) col aliases best) (none, 0)

/-- The spec-worded column matcher. -/
def claimAnalyzeColumns (fields : List (String × List String)) (rawCols : List String) :
    List (String × String) :=
  let cols := rawCols.map pyStrip
  fields.foldl (fun mapping f =>
    match claimBestFor f.2 cols (mapping.map (fun e => e.2)) with
    | (some col, sc) => if sc > 50 then mapping ++ [(f.1, col)] else mapping
    | (none, _) => mapping) []

end Converter

/-- **C8** (counterexample). The claim's score is `len(shorter)/len(longer)
× 80`, but the code computes `len(alias)/len(column) × 80`. For the input
column "old", the alias "years_old" of field `age` contains the column, so
the code scores it 9/3 × 80 = 240 and maps `age ← old`, while under the
claimed formula the score is 3/9 × 80 ≈ 26.7 ≤ 50 and nothing is mapped. -/
theorem column_score_formula_cex :
    Converter.analyzeColumns Converter.fieldMapping ["old"] = [("age", "old")] ∧
    Converter.claimAnalyzeColumns Converter.fieldMapping ["old"] = [] ∧
    Converter.containScore "years_old".toList "old".toList = 240 ∧
    Converter.claimContainScore "years_old".toList "old".toList ≤ 50 := by
  refine ⟨?_, ?_, ?_, ?_⟩ <;> with_unfolding_all decide

lemma prefixEq_length_le : ∀ {a b : List Char}, prefixEq a b = true → a.length ≤ b.length := by
  intro a
  induction a with
  | nil => intro b _; simp
  | cons x xs ih =>
    intro b h
    cases b with
    | nil => simp [prefixEq] at h
    | cons y ys =>
      simp only [prefixEq, Bool.and_eq_true] at h
      simpa using Nat.succ_le_succ (ih h.2)

lemma seqIn_length_le : ∀ {a b : List Char}, seqIn a b = true → a.length ≤ b.length := by
  intro a b
  induction b with
  | nil =>
    intro h
    simp only [seqIn, List.isEmpty_iff] at h
    simp [h]
  | cons y ys ih =>
    intro h
    simp only [seqIn, Bool.or_eq_true] at h
    rcases h with h | h
    · exact prefixEq_length_le h
    · exact (ih h).trans (by simp)

lemma aliasScan_cases (cc : List Char) (col : String) :
    ∀ (aliases : List String) (best : Option String × ℚ),
      Converter.aliasScan cc col aliases best = best ∨
      (Converter.aliasScan cc col aliases best).1 = some col := by
  intro aliases
  induction aliases with
  | nil => intro best; left; rfl
  | cons a rest ih =>
    intro best
    simp only [Converter.aliasScan]
    split_ifs with h1 h2 h3
    · right; rfl
    · rcases ih (some col, Converter.containScore (trimChars (pyLower a).toList) cc) with h | h
      · right; rw [h]
      · right; exact h
    · exact ih best
    · exact ih best

lemma bestFor_unused (aliases : List String) :
    ∀ (cols used : List String) (c : String),
      (Converter.bestFor aliases cols used).1 = some c → used.contains c = false := by
  have aux : ∀ (used cols : List String) (best : Option String × ℚ),
      (∀ c, best.1 = some c → used.contains c = false) →
      ∀ c, (cols.foldl (fun best col =>
          if used.contains col then best
          else Converter.aliasScan (trimChars (pyLower col).toList) col aliases best) best).1
          = some c → used.contains c = false := by
    intro used cols
    induction cols with
    | nil => intro best h; exact h
    | cons col rest ih =>
      intro best hbest
      rw [List.foldl_cons]
      refine ih _ (fun c hc => ?_)
      by_cases hu : used.contains col
      · rw [if_pos hu] at hc
        exact hbest c hc
      · rw [if_neg hu] at hc
        rcases aliasScan_cases (trimChars (pyLower col).toList) col aliases best with h | h
        · exact hbest c (h ▸ hc)
        · rw [h] at hc
          cases hc
          simpa using hu
  intro cols used c h
  exact aux used cols (none, 0) (by intro c hc; cases hc) c h

/-- **C8** (amended). On containment the code's score is `len(alias)/
len(column) × 80` — this agrees with the claimed `len(shorter)/len(longer)
× 80` exactly when the alias is contained in (hence no longer than) the
column, and exceeds it (the behavioural difference shown by the
counterexample) when the column is strictly contained in a longer alias.
The consumption discipline of the claim does hold: each input column is
claimed by at most one canonical field, fields being processed in table
order. -/
theorem column_matching_amended :
    (∀ ac cc : List Char, seqIn ac cc = true →
      Converter.containScore ac cc = Converter.claimContainScore ac cc) ∧
    (∀ (fields : List (String × List String)) (cols : List String),
      ((Converter.analyzeColumns fields cols).map (fun e => e.2)).Nodup) := by
  constructor
  · intro ac cc h
    have hle := seqIn_length_le h
    unfold Converter.containScore Converter.claimContainScore
    rcases Nat.eq_zero_or_pos cc.length with h0 | hpos
    · have ha : ac.length = 0 := by omega
      rw [ha, h0]
      norm_num
    · have hmax : max cc.length 1 = cc.length := by omega
      have hmin : min ac.length cc.length = ac.length := by omega
      have hmax2 : max ac.length cc.length = cc.length := by omega
      rw [hmax, hmin, hmax2]
  · intro fields cols
    unfold Converter.analyzeColumns
    have aux : ∀ (fs : List (String × List String)) (mapping : List (String × String)),
        (mapping.map (fun e => e.2)).Nodup →
        ((fs.foldl (fun mapping f =>
          match Converter.bestFor f.2 (cols.map pyStrip) (mapping.map (fun e => e.2)) with
          | (some col, sc) => if sc > 50 then mapping ++ [(f.1, col)] else mapping
          | (none, _) => mapping) mapping).map (fun e => e.2)).Nodup := by
      intro fs
      induction fs with
      | nil => intro mapping h; exact h
      | cons f rest ih =>
        intro mapping h
        rw [List.foldl_cons]
        refine ih _ ?_
        rcases hb : Converter.bestFor f.2 (cols.map pyStrip) (mapping.map (fun e => e.2)) with
          ⟨bm, sc⟩
        cases bm with
        | none => simpa [hb] using h
        | some col =>
          have hun : (mapping.map (fun e => e.2)).contains col = false :=
            bestFor_unused f.2 (cols.map pyStrip) (mapping.map (fun e => e.2)) col
              (by rw [hb])
          have hnm : ¬ col ∈ mapping.map (fun e => e.2) := by
            intro hmem
            have h2 := List.elem_eq_true_of_mem hmem
            unfold List.contains at hun
            rw [h2] at hun
            cases hun
          simp only [hb]
          by_cases hsc : sc > 50
          · rw [if_pos hsc, List.map_append]
            rw [List.nodup_append]
            exact ⟨h, List.nodup_singleton _, by
              intro x hx hx'
              simp only [List.map_cons, List.map_nil, List.mem_singleton] at hx'
              exact hnm (hx' ▸ hx)⟩
          · rw [if_neg hsc]
            exact h
    exact aux fields [] (by simp)

/-- Witness for the amended C8 theorem: the alias "stenosis" is contained in
the column "stenosis_percent", and there the code score equals the claimed
shorter/longer score; the matcher on a concrete header consumes each column
at most once. -/
theorem column_matching_amended_witness :
    Converter.containScore "stenosis".toList "stenosis_percent".toList =
      Converter.claimContainScore "stenosis".toList "stenosis_percent".toList ∧
    ((Converter.analyzeColumns Converter.fieldMapping ["age", "sex"]).map
      (fun e => e.2)).Nodup := by
  exact ⟨column_matching_amended.1 _ _ (by decide),
    column_matching_amended.2 Converter.fieldMapping ["age", "sex"]⟩

namespace Dialog

/-!  `merge_scores` / `aggregate_scores` of `run_scoring_with_dialog.py` -/

/-- A pandas cell as far as the merge observes it: a string, an integer, or
a null (NaN). -/
inductive Cell
  | str (s : String)
  | num (n : ℤ)
  | null
deriving DecidableEq, Repr

/-- `astype(str)` on one cell (`str()` of the value; pandas renders NaN as
"nan"). -/
def pyCellStr : Cell → String
  | .str s => s
  | .num n => toString n
  | .null => "nan"

/-- An input row: the `subjid` cell plus the remaining original columns,
kept opaque. -/
structure InRow where
  subjid : Cell
  rest : List Cell
deriving DecidableEq, Repr

/-- An `AggregatedScores` record (lines 55–62). -/
structure AggRec where
  sx_score : ℚ
  sx_class : String
  cad_rads_grade : ℕ
  gensini_score : ℚ
  gensini_class : String
deriving DecidableEq, Repr

/-- A merged output row: original cells plus the five appended score columns
(`none` = the NaN row pandas produces for an unmatched left key). -/
structure OutRow where
  subjid : Cell
  rest : List Cell
  scores : Option AggRec
deriving DecidableEq, Repr

/-- First score record for a key, if any. -/
def lookupAgg (agg : List (String × AggRec)) (k : String) : Option AggRec :=
  (agg.find? (fun e => e.1 == k)).map (fun e => e.2)

/-- `merge_scores` (lines 210–227): `df.merge(agg_df, left_on="subjid",
right_on="patient_id", how="left")` after `df["subjid"] =
df["subjid"].astype(str)` on a copy. Pandas left-merge semantics: each left
row is paired with every matching right row in order, or with one all-NaN
row when nothing matches (the dropped helper column `patient_id` is not
modelled as an output column). -/
def leftMerge (df : List InRow) (agg : List (String × AggRec)) : List OutRow :=
  df.flatMap (fun r =>
    match agg.filter (fun e => e.1 == pyCellStr r.subjid) with
    | [] => [{ subjid := .str (pyCellStr r.subjid), rest := r.rest, scores := none }]
    | ms => ms.map (fun m =>
        { subjid := .str (pyCellStr r.subjid), rest := r.rest, scores := some m.2 }))

/-- The key set of the `patients` dict built by `aggregate_scores`
(lines 179–188): first-appearance order, inserted once per patient id. -/
def groupKeys (pids : List String) : List String :=
  pids.foldl (fun ks pid => if ks.contains pid then ks else ks ++ [pid]) []

end Dialog

/-- A concrete input row with an integer identifier. -/
def rowSeven : Dialog.InRow := { subjid := .num 7, rest := [.num 42] }

/-- **C9** (counterexample). The claim says every original column keeps its
values unchanged. `merge_scores` casts the `subjid` column with
`astype(str)` before joining, so an integer identifier 7 leaves the merge as
the string "7" — a changed cell value — while the rest of the row and the
left-join null behaviour are as claimed. -/
theorem merge_subjid_cast_cex :
    Dialog.leftMerge [rowSeven] [] =
      [{ subjid := .str "7", rest := [.num 42], scores := none }] ∧
    Dialog.Cell.str "7" ≠ Dialog.Cell.num 7 := by
  constructor <;> with_unfolding_all decide

lemma filter_key_of_nodup (agg : List (String × Dialog.AggRec)) (k : String)
    (h : (agg.map (fun e => e.1)).Nodup) :
    agg.filter (fun e => e.1 == k) =
      (match agg.find? (fun e => e.1 == k) with
       | none => ([] : List (String × Dialog.AggRec))
       | some e => [e]) := by
  induction agg with
  | nil => rfl
  | cons e rest ih =>
    rw [List.map_cons, List.nodup_cons] at h
    rcases hbeq : (e.1 == k) with _ | _
    · rw [List.filter_cons_of_neg (by simp [hbeq]), List.find?_cons_of_neg _ (by simp [hbeq])]
      exact ih h.2
    · rw [List.filter_cons_of_pos (by simp [hbeq]), List.find?_cons_of_pos _ (by simp [hbeq])]
      have hek : e.1 = k := by simpa using hbeq
      have hrest : rest.filter (fun e => e.1 == k) = [] := by
        rw [List.filter_eq_nil_iff]
        intro x hx hbx
        have hxk : x.1 = k := by simpa using hbx
        exact h.1 (by
          rw [← hek, ← hxk] at *
          exact List.mem_map_of_mem (fun e => e.1) hx)
      rw [hrest]

lemma groupKeys_aux :
    ∀ (pids acc : List String), acc.Nodup →
      (pids.foldl (fun ks pid => if ks.contains pid then ks else ks ++ [pid]) acc).Nodup := by
  intro pids
  induction pids with
  | nil => intro acc h; exact h
  | cons p rest ih =>
    intro acc h
    rw [List.foldl_cons]
    by_cases hc : acc.contains p
    · rw [if_pos hc]
      exact ih acc h
    · rw [if_neg hc]
      refine ih _ ?_
      rw [List.nodup_append]
      refine ⟨h, List.nodup_singleton _, fun x hx hx' => ?_⟩
      simp only [List.mem_singleton] at hx'
      subst hx'
      exact hc (List.elem_eq_true_of_mem hx)

/-- **C9** (amended). With unique right keys — which `aggregate_scores`
guarantees, its records coming from a dict keyed by patient id — the pandas
left merge of `merge_scores` is exactly a per-row lookup: the output has one
row per input row in order (none dropped, none duplicated), every original
non-identifier column is carried unchanged, the subjid column is the
string-cast of the original identifier, and rows without a score record get
null score columns. -/
theorem merge_left_join_amended (df : List Dialog.InRow)
    (agg : List (String × Dialog.AggRec))
    (h : (agg.map (fun e => e.1)).Nodup) :
    Dialog.leftMerge df agg = df.map (fun r =>
      { subjid := Dialog.Cell.str (Dialog.pyCellStr r.subjid), rest := r.rest,
        scores := Dialog.lookupAgg agg (Dialog.pyCellStr r.subjid) }) ∧
    (Dialog.leftMerge df agg).length = df.length ∧
    (∀ pids : List String, (Dialog.groupKeys pids).Nodup) := by
  have hmain : Dialog.leftMerge df agg = df.map (fun r =>
      { subjid := Dialog.Cell.str (Dialog.pyCellStr r.subjid), rest := r.rest,
        scores := Dialog.lookupAgg agg (Dialog.pyCellStr r.subjid) }) := by
    induction df with
    | nil => rfl
    | cons r rest ih =>
      unfold Dialog.leftMerge at ih ⊢
      rw [List.flatMap_cons, ih, List.map_cons]
      rw [filter_key_of_nodup agg (Dialog.pyCellStr r.subjid) h]
      unfold Dialog.lookupAgg
      cases agg.find? (fun e => e.1 == Dialog.pyCellStr r.subjid) with
      | none => rfl
      | some e => rfl
  exact ⟨hmain, by rw [hmain, List.length_map],
    fun pids => groupKeys_aux pids [] List.nodup_nil⟩

/-- A one-record aggregation for the witness. -/
def aggSeven : List (String × Dialog.AggRec) := [("7", ⟨10, "Low", 3, 20, "Moderate"⟩)]

/-- Witness for the amended C9 theorem at a concrete input: the integer
identifier 7 matches the record keyed "7" after the string cast. -/
theorem merge_left_join_amended_witness :
    Dialog.leftMerge [rowSeven] aggSeven =
      [{ subjid := .str "7", rest := [.num 42],
         scores := some ⟨10, "Low", 3, 20, "Moderate"⟩ }] := by
  rw [(merge_left_join_amended [rowSeven] aggSeven (by decide)).1]
  with_unfolding_all decide
